import Mathlib

/-!
Shallow embedding of the filecoin-proofs sealing / unsealing / PoSt driver
(filecoin-proofs/src/safe.rs) together with the DRG encoder/decoder that
backs replication, and theorems settling the specification's claims about
them.

Bytes are modelled as natural numbers below 256, byte buffers as lists of
naturals, and BLS12-381 scalar-field elements as their canonical natural
value below the field order.  Fallible Rust computations are modelled by an
explicit outcome type distinguishing Ok values, recoverable errors (the
question-mark operator) and process-aborting panics.  External collaborators
(the SNARK circuit backend, the parameter cache, the storage layer and the
hash functions) are passed in as explicit environment records of functions,
so every driver is an executable Lean function of its environment.
-/

set_option maxHeartbeats 1000000
set_option maxRecDepth 100000

/-- Outcome of a fallible Rust computation: an Ok value, a recoverable error
propagated by the question-mark operator, or a process-aborting panic. -/
inductive Outcome (α : Type) where
  | ok : α → Outcome α
  | err : String → Outcome α
  | panic : String → Outcome α
  deriving DecidableEq

/-- Sequencing of fallible steps: errors and panics short-circuit. -/
def Outcome.bind {α β : Type} : Outcome α → (α → Outcome β) → Outcome β
  | .ok a, f => f a
  | .err m, _ => .err m
  | .panic m, _ => .panic m

/-- Rust's expect / unwrap on a Result: an Ok value passes through, a
recoverable error becomes a panic carrying the expect message. -/
def Outcome.expects {α : Type} : Outcome α → String → Outcome α
  | .ok a, _ => .ok a
  | .err _, m => .panic m
  | .panic m, _ => .panic m

/-- Collecting an iterator of fallible items into a vector, as Rust's
collect over Results: items are evaluated in order and the first error or
panic aborts the whole collection. -/
def mapOutcome {α β : Type} (f : α → Outcome β) : List α → Outcome (List β)
  | [] => .ok []
  | a :: rest =>
      (f a).bind fun b => (mapOutcome f rest).bind fun bs => .ok (b :: bs)

/-- Order of the BLS12-381 scalar field Fr, the modulus against which
bytes_into_fr checks canonicity. -/
def fr_modulus : Nat :=
  52435875175126190479447740508185965837690552500527637822603658699938581184513

/-- Little-endian value of a byte string, as read by FrRepr::read_le. -/
def le_val : List Nat → Nat
  | [] => 0
  | b :: rest => b + 256 * le_val rest

/-- storage_proofs::fr32::bytes_into_fr: reads exactly 32 little-endian
bytes and fails unless they canonically represent a field element, i.e.
their value is below the field order.  PedersenDomain::try_from_bytes
performs the same canonicity check and is modelled by this function too. -/
def bytes_into_fr (bs : List Nat) : Outcome Nat :=
  if bs.length = 32 ∧ le_val bs < fr_modulus then .ok (le_val bs)
  else .err "could not convert bytes to Fr"

/-- storage_proofs::fr32::fr_into_bytes: the 32-byte little-endian encoding
of a field element, used by commitment_from_fr in safe.rs. -/
def fr_into_bytes (x : Nat) : List Nat :=
  (List.range 32).map fun i => x / 256 ^ i % 256

/-- safe.rs pad_safe_fr: zero-extend a 31-byte FrSafe id to 32 bytes
(res is zeroed, res[0..31] receives the input). -/
def pad_safe_fr (u : List Nat) : List Nat := u ++ [0]

/-- sector_base::api::SINGLE_PARTITION_PROOF_LEN.
Modelled from the spec: the fixed per-partition byte length of one
sub-proof (one Groth16 proof over BLS12-381, 192 bytes); a MultiProof blob
is partitions many such sub-proofs concatenated with no length prefix. -/
def SINGLE_PARTITION_PROOF_LEN : Nat := 192

/-- Modelled from the spec: storage_proofs MultiProof::new_from_reader
(not under src/).  Reads exactly the given number of fixed-length
sub-proofs from the front of the blob, failing deterministically when the
blob is too short, and never reading past the bytes it needs, so trailing
bytes are ignored.  Deserialization of the individual curve points inside a
sub-proof is abstracted: a sub-proof is kept as its raw byte slice. -/
def multi_proof_from_bytes (partitions : Nat) (bytes : List Nat) :
    Outcome (List (List Nat)) :=
  if bytes.length < partitions * SINGLE_PARTITION_PROOF_LEN then
    .err "could not read multi proof from bytes"
  else
    .ok ((List.range partitions).map fun k =>
      (bytes.drop (k * SINGLE_PARTITION_PROOF_LEN)).take SINGLE_PARTITION_PROOF_LEN)

/-- A byte array fails the canonical field-element check of bytes_into_fr. -/
def badFr (bs : List Nat) : Prop := ¬(bs.length = 32 ∧ le_val bs < fr_modulus)

instance (bs : List Nat) : Decidable (badFr bs) := by
  unfold badFr; infer_instance

/-! ### DRG encoder / decoder (vde)

Modelled from the spec: the vde module of the storage-proofs crate is
declared in src/src/lib.rs but its body is not under src/.  Per the spec,
encode walks the nodes in increasing index order, derives a per-node key
from a domain-separated hash over the replica id and the already-encoded
parent values (all parents of a node precede it), and combines the key
invertibly (a field-safe XOR-equivalent operation) with the plaintext node
in place; decode performs the identical traversal against the immutable
replica, recomputing each key from the replica's parent values and
inverting the combine step.  The graph's parent function and the keyed
hash (with the replica id folded in) are the components of a layer. -/

/-- One DRG encoding layer: the sampled parent function of the graph and
the per-node key derivation (replica id already folded in). -/
structure DrgLayer where
  parents : Nat → List Nat
  key : Nat → List Nat → Nat

/-- The graph is acyclic when traversed forward: all parents of a node
have strictly smaller index. -/
def DrgAcyclic (L : DrgLayer) : Prop := ∀ i p, p ∈ L.parents i → p < i

/-- Encode a single node in place: combine the node's current value with
the key derived from the (already encoded) parent values in the buffer. -/
def encNode (L : DrgLayer) (buf : List Nat) (i : Nat) : List Nat :=
  buf.set i
    ((buf.getD i 0) ^^^ (L.key i ((L.parents i).map fun p => buf.getD p 0)))

/-- Run the in-place encoding pass over the first k node indices. -/
def encodeUpTo (L : DrgLayer) (data : List Nat) (k : Nat) : List Nat :=
  (List.range k).foldl (encNode L) data

/-- vde encode: the full sequential in-place encoding pass over all nodes
in increasing index order. -/
def vde_encode (L : DrgLayer) (data : List Nat) : List Nat :=
  encodeUpTo L data data.length

/-- Decode a single node out of place: recompute the key from the
replica's parent values and invert the combine step. -/
def decNode (L : DrgLayer) (replica : List Nat) (i : Nat) : Nat :=
  (replica.getD i 0) ^^^ (L.key i ((L.parents i).map fun p => replica.getD p 0))

/-- vde decode: the identical traversal against the immutable replica,
producing the decoded buffer. -/
def vde_decode (L : DrgLayer) (replica : List Nat) : List Nat :=
  (List.range replica.length).map (decNode L replica)

/-- Modelled from the spec: layered (zigzag) replication applies the
encoder once per layer, each layer consuming the previous layer's output,
with the traversal direction flip folded into each layer's sampled graph. -/
def replicate_encode (layers : List DrgLayer) (data : List Nat) : List Nat :=
  layers.foldl (fun d L => vde_encode L d) data

/-- Modelled from the spec: ZigZagDrgPoRep::extract_all (not under src/)
inverts the layered replication encoding, undoing the layers in reverse
order of application. -/
def extract_all (layers : List DrgLayer) (replica : List Nat) : List Nat :=
  layers.foldr (fun L d => vde_decode L d) replica

/-! ### verify_seal (safe.rs lines 203-265) -/

/-- The public inputs handed to the compound zigzag verifier. -/
structure PorepPublicInputs where
  replica_id : Nat
  comm_r : Nat
  comm_d : Nat
  comm_r_star : Nat
  deriving DecidableEq

/-- External collaborators of verify_seal: the replica-id hash, the
compound setup, the verifying-key cache and the arithmetic-circuit
verifier consuming the parsed multi proof. -/
structure VerifyEnv where
  replicaId : List Nat → List Nat → Nat
  setup : Outcome Unit
  verifyingKey : Outcome Unit
  circuitVerify : PorepPublicInputs → List (List Nat) → Outcome Bool

/-- Replace the arithmetic-circuit verifier of a VerifyEnv. -/
def VerifyEnv.withCircuit (e : VerifyEnv)
    (f : PorepPublicInputs → List (List Nat) → Outcome Bool) : VerifyEnv :=
  ⟨e.replicaId, e.setup, e.verifyingKey, f⟩

/-- safe.rs verify_seal: pad the ids, derive the replica id, convert the
three commitments with bytes_into_fr (each with the question-mark
operator), run compound setup, build the public inputs, fetch the
verifying key, parse the proof blob into a multi proof and hand everything
to the compound verifier. -/
def verify_seal (env : VerifyEnv) (partitions : Nat)
    (comm_r comm_d comm_r_star : List Nat)
    (prover_id_in sector_id_in : List Nat) (proof_vec : List Nat) :
    Outcome Bool :=
  let prover_id := pad_safe_fr prover_id_in
  let sector_id := pad_safe_fr sector_id_in
  let rid := env.replicaId prover_id sector_id
  (bytes_into_fr comm_r).bind fun comm_r_fr =>
  (bytes_into_fr comm_d).bind fun comm_d_fr =>
  (bytes_into_fr comm_r_star).bind fun comm_r_star_fr =>
  env.setup.bind fun _ =>
  let pub : PorepPublicInputs := ⟨rid, comm_r_fr, comm_d_fr, comm_r_star_fr⟩
  env.verifyingKey.bind fun _ =>
  (multi_proof_from_bytes partitions proof_vec).bind fun proofs =>
  env.circuitVerify pub proofs

/-! ### seal (safe.rs lines 97-199) -/

/-- The result record returned by seal. -/
structure SealOutput where
  comm_r : List Nat
  comm_r_star : List Nat
  comm_d : List Nat
  proof : List Nat
  deriving DecidableEq

/-- External collaborators of seal, in the order the call uses them:
copying the staged data to the output path, opening the output file,
extending it to sector size, memory-mapping it (unwrapped, so a failure is
a panic), compound setup, replication (yielding the comm_r, comm_d and
comm_r_star field elements), the durable flush, the proving-parameter
cache, the prover (yielding the proof bytes), and the environment of the
embedded post-seal verify_seal call. -/
structure SealEnv where
  copyData : Outcome Unit
  openData : Outcome Unit
  setLen : Outcome Unit
  mmap : Outcome Unit
  setup : Outcome Unit
  replicateStep : Outcome (Nat × Nat × Nat)
  flush : Outcome Unit
  grothParams : Outcome Unit
  prove : Outcome (List Nat)
  verifyEnv : VerifyEnv

/-- The phase of seal that runs before the output is committed: copy the
input into place, open and size the output file, map it, derive the
replica id, run setup and the full layered replication, then flush.  Only
when every one of these steps succeeds does the FileCleanup guard get its
success flag set. -/
def seal_pre (env : SealEnv) : Outcome (Nat × Nat × Nat) :=
  env.copyData.bind fun _ =>
  env.openData.bind fun _ =>
  env.setLen.bind fun _ =>
  (env.mmap.expects "mmap failed").bind fun _ =>
  env.setup.bind fun _ =>
  env.replicateStep.bind fun tau =>
  env.flush.bind fun _ => .ok tau

/-- The phase of seal that runs after the replica is flushed: fetch the
proving parameters, prove, serialize the commitments, and run the
mandatory post-seal verify_seal call.  Faithful to the source, the call's
Result is only unwrapped with expect, which panics on Err and discards an
Ok verdict, whether true or false. -/
def seal_post (env : SealEnv) (partitions : Nat)
    (prover_id_in sector_id_in : List Nat) (tau : Nat × Nat × Nat) :
    Outcome SealOutput :=
  env.grothParams.bind fun _ =>
  env.prove.bind fun buf =>
  let comm_r := fr_into_bytes tau.1
  let comm_d := fr_into_bytes tau.2.1
  let comm_r_star := fr_into_bytes tau.2.2
  ((verify_seal env.verifyEnv partitions comm_r comm_d comm_r_star
      prover_id_in sector_id_in buf).expects
    "post-seal verification sanity check failed").bind fun _ =>
  .ok ⟨comm_r, comm_r_star, comm_d, buf⟩

/-- The pair returned by the seal model: the call's outcome, and whether
the output file at out_path is retained on exit.  Modelled from the spec:
the FileCleanup guard (crate::file_cleanup, not under src/) deletes the
output file on every exit path, normal or unwinding, unless its success
flag was set, which seal does immediately after the flush succeeds. -/
structure SealResult where
  result : Outcome SealOutput
  retained : Bool
  deriving DecidableEq

/-- safe.rs seal (named seal_op here because seal is a reserved Mathlib command): run the pre-flush phase under the cleanup guard; a
failure there discards the output file.  Once the flush has succeeded the
guard is disarmed and the output is retained through the proving phase
regardless of its outcome. -/
def seal_op (env : SealEnv) (partitions : Nat)
    (prover_id_in sector_id_in : List Nat) : SealResult :=
  match seal_pre env with
  | .ok tau => ⟨seal_post env partitions prover_id_in sector_id_in tau, true⟩
  | .err m => ⟨.err m, false⟩
  | .panic m => ⟨.panic m, false⟩

/-! ### get_unsealed_range (safe.rs lines 272-305) -/

/-- Modelled from the spec: sector_base::io::fr32::write_unpadded (not
under src/) converts the padded decoded buffer back to its unpadded byte
stream and writes exactly the requested range of it, bytes offset up to
offset plus len, to the writer.  The padding conversion itself belongs to
the external storage collaborator and is passed in as the unpad function. -/
def write_unpadded (unpad : List Nat → List Nat) (source : List Nat)
    (offset len : Nat) : List Nat :=
  ((unpad source).drop offset).take len

/-- safe.rs get_unsealed_range: read at most the padded sector size from
the sealed file, decode the entire sector with extract_all (there is no
partial decode), then write only the requested unpadded byte range,
returning the bytes written and their count.  File-system errors of the
read and write are outside the model. -/
def get_unsealed_range (layers : List DrgLayer)
    (unpad : List Nat → List Nat) (padded_sector_bytes : Nat)
    (sealed_contents : List Nat) (offset num_bytes : Nat) :
    List Nat × Nat :=
  let data := sealed_contents.take padded_sector_bytes
  let unsealed := extract_all layers data
  let written := write_unpadded unpad unsealed offset num_bytes
  (written, written.length)

/-! ### PoSt generation and verification (safe.rs lines 331-459) -/

/-- The public inputs handed to the compound VDF-PoSt circuit. -/
structure PostPublicInputs where
  commitments : List Nat
  challenge_seed : Nat
  faults : List Nat
  deriving DecidableEq

/-- The fixed-sectors-count input record of generate_post. -/
structure GeneratePoStFixedSectorsCountInput where
  partitions : Nat
  challenge_seed : List Nat
  input_parts : List (Option String × List Nat)

/-- The fixed-sectors-count output record of generate_post. -/
structure GeneratePoStFixedSectorsCountOutput where
  proof : List Nat
  faults : List Nat
  deriving DecidableEq

/-- External collaborators of generate_post_fixed_sectors_count: compound
setup, Merkle-tree construction over a sector access, the
proving-parameter cache, and the compound prover. -/
structure PostGenEnv where
  setup : Outcome Unit
  makeTree : String → Outcome Unit
  grothParams : Outcome Unit
  prove : PostPublicInputs → List Unit → Outcome (List Nat)

/-- safe.rs generate_post_fixed_sectors_count, lines 353-358: copy the
32-byte challenge seed and clear the top two bits of byte 31 by masking it
with 0b0011_1111, making the seed canonically reducible as a field
element. -/
def gen_safe_challenge_seed (cs : List Nat) : List Nat :=
  cs.set 31 ((cs.getD 31 0) &&& 63)

/-- safe.rs verify_post_fixed_sectors_count, lines 403-408: copy the
32-byte challenge seed and clear the top two bits of byte 31 by masking it
with 0b0011_1111, making the seed canonically reducible as a field
element. -/
def ver_safe_challenge_seed (cs : List Nat) : List Nat :=
  cs.set 31 ((cs.getD 31 0) &&& 63)

/-- safe.rs generate_post_fixed_sectors_count: start from an empty faults
vector, run compound setup (expect, so a failure panics), convert every
comm_r with an unwrap (panicking on a malformed commitment), mask the
challenge seed, convert it with an unwrap, build the public inputs with an
empty faults list, build one Merkle tree per input part, panicking
outright when a part has no sector access, fetch the proving parameters,
prove (expect, so a failure panics) and return the proof bytes together
with the still-empty faults vector. -/
def generate_post_fixed_sectors_count (env : PostGenEnv)
    (fixed : GeneratePoStFixedSectorsCountInput) :
    Outcome GeneratePoStFixedSectorsCountOutput :=
  let faults : List Nat := []
  (env.setup.expects "setup failed").bind fun _ =>
  (mapOutcome
      (fun part => (bytes_into_fr part.2).expects
        "called Option unwrap on a None value")
      fixed.input_parts).bind fun commitments =>
  let safe_challenge_seed := gen_safe_challenge_seed fixed.challenge_seed
  ((bytes_into_fr safe_challenge_seed).expects
      "called Option unwrap on a None value").bind fun seed =>
  let pub : PostPublicInputs := ⟨commitments, seed, []⟩
  (mapOutcome
      (fun part =>
        match part.1 with
        | some s => (env.makeTree s).expects
            "called Result unwrap on an Err value"
        | none => Outcome.panic "faults are not yet supported")
      fixed.input_parts).bind fun trees =>
  env.grothParams.bind fun _ =>
  ((env.prove pub trees).expects "failed while proving").bind fun buf =>
  .ok ⟨buf, faults⟩

/-- The fixed-sectors-count input record of verify_post. -/
structure VerifyPoStFixedSectorsCountInput where
  partitions : Nat
  comm_rs : List (List Nat)
  challenge_seed : List Nat
  proof : List Nat
  faults : List Nat

/-- Replace the proof blob of a verify_post fixed input. -/
def VerifyPoStFixedSectorsCountInput.withProof
    (fixed : VerifyPoStFixedSectorsCountInput) (p : List Nat) :
    VerifyPoStFixedSectorsCountInput :=
  ⟨fixed.partitions, fixed.comm_rs, fixed.challenge_seed, p, fixed.faults⟩

/-- The fixed-sectors-count output record of verify_post. -/
structure VerifyPoStFixedSectorsCountOutput where
  is_valid : Bool
  deriving DecidableEq

/-- External collaborators of verify_post_fixed_sectors_count: compound
setup, the verifying-key cache and the compound circuit verifier. -/
structure PostVerifyEnv where
  setup : Outcome Unit
  verifyingKey : Outcome Unit
  circuitVerify : PostPublicInputs → List (List Nat) → Outcome Bool

/-- Replace the circuit verifier of a PostVerifyEnv. -/
def PostVerifyEnv.withCircuit (e : PostVerifyEnv)
    (f : PostPublicInputs → List (List Nat) → Outcome Bool) : PostVerifyEnv :=
  ⟨e.setup, e.verifyingKey, f⟩

/-- safe.rs verify_post_fixed_sectors_count: mask the challenge seed, run
compound setup (expect, so a failure panics), convert every comm_r with an
expects (panicking on a malformed commitment), convert the masked seed
(question-mark operator), build the public inputs carrying the declared
faults, fetch the verifying key, then slice the first
SINGLE_PARTITION_PROOF_LEN times partitions bytes of the proof blob -- a
blob shorter than that makes the slice index out of range, a panic --
parse them as a multi proof and hand everything to the compound verifier. -/
def verify_post_fixed_sectors_count (env : PostVerifyEnv)
    (fixed : VerifyPoStFixedSectorsCountInput) :
    Outcome VerifyPoStFixedSectorsCountOutput :=
  let safe_challenge_seed := ver_safe_challenge_seed fixed.challenge_seed
  (env.setup.expects "setup failed").bind fun _ =>
  (mapOutcome
      (fun c => (bytes_into_fr c).expects
        "could not could not map comm_r to Fr")
      fixed.comm_rs).bind fun commitments =>
  (bytes_into_fr safe_challenge_seed).bind fun seed =>
  let pub : PostPublicInputs := ⟨commitments, seed, fixed.faults⟩
  env.verifyingKey.bind fun _ =>
  let num_post_proof_bytes := SINGLE_PARTITION_PROOF_LEN * fixed.partitions
  if fixed.proof.length < num_post_proof_bytes then
    .panic "range end index out of range for slice"
  else
    (multi_proof_from_bytes fixed.partitions
        (fixed.proof.take num_post_proof_bytes)).bind fun proofs =>
    (env.circuitVerify pub proofs).bind fun is_valid =>
    .ok ⟨is_valid⟩

/-! ### Concrete instances used by witnesses and counterexamples -/

/-- A 31-byte all-zero prover / sector id. -/
def pid0 : List Nat := List.replicate 31 0

/-- A 31-byte all-zero sector id. -/
def sid0 : List Nat := List.replicate 31 0

/-- A 32-byte all-zero buffer: a canonical commitment / challenge seed. -/
def zeros32 : List Nat := List.replicate 32 0

/-- 32 bytes of 0xff: their little-endian value exceeds the field order,
so they do not canonically represent a field element. -/
def badComm : List Nat := List.replicate 32 255

/-- A single-partition proof blob of the expected byte length. -/
def proof192 : List Nat := List.replicate 192 0

/-- A verify_seal environment whose external collaborators all succeed and
whose circuit verifier accepts. -/
def okVerifyEnv : VerifyEnv :=
  ⟨fun _ _ => 0, .ok (), .ok (), fun _ _ => .ok true⟩

/-- A verify_seal environment whose external collaborators all succeed but
whose circuit verifier rejects every proof. -/
def rejectVerifyEnv : VerifyEnv :=
  ⟨fun _ _ => 0, .ok (), .ok (), fun _ _ => .ok false⟩

/-- A seal environment in which every step succeeds, replication yields
the zero commitments, proving yields a 192-byte blob, and the embedded
post-seal verifier rejects the proof with Ok(false). -/
def sealEnvReject : SealEnv :=
  ⟨.ok (), .ok (), .ok (), .ok (), .ok (), .ok (0, 0, 0), .ok (), .ok (),
    .ok proof192, rejectVerifyEnv⟩

/-- The seal output produced under sealEnvReject. -/
def sealOutReject : SealOutput :=
  ⟨fr_into_bytes 0, fr_into_bytes 0, fr_into_bytes 0, proof192⟩

/-- A PoSt generation environment whose external collaborators all
succeed. -/
def okPostGenEnv : PostGenEnv :=
  ⟨.ok (), fun _ => .ok (), .ok (), fun _ _ => .ok proof192⟩

/-- A generate_post fixed input declaring its only sector faulted (no
sector access). -/
def faultedGenInput : GeneratePoStFixedSectorsCountInput :=
  ⟨1, zeros32, [(none, zeros32)]⟩

/-- A generate_post fixed input with one accessible sector. -/
def okGenInput : GeneratePoStFixedSectorsCountInput :=
  ⟨1, zeros32, [(some "sealed-sector-0", zeros32)]⟩

/-- The generate_post output produced under okPostGenEnv and okGenInput. -/
def genPostOut0 : GeneratePoStFixedSectorsCountOutput := ⟨proof192, []⟩

/-- A PoSt verification environment whose external collaborators all
succeed and whose circuit verifier accepts. -/
def okPostVerifyEnv : PostVerifyEnv :=
  ⟨.ok (), .ok (), fun _ _ => .ok true⟩

/-- A verify_post fixed input whose proof blob is empty, shorter than the
one partition times SINGLE_PARTITION_PROOF_LEN bytes the verifier slices. -/
def postFixed0 : VerifyPoStFixedSectorsCountInput :=
  ⟨1, [], zeros32, [], []⟩

/-- A simple acyclic DRG layer: node i depends on all earlier nodes, and
the key is the node index plus the sum of the parent values. -/
def chainLayer : DrgLayer :=
  ⟨fun i => List.range i, fun n ps => n + ps.sum⟩

/-! ### Helper lemmas -/

theorem getD_set_self (l : List Nat) (i v d : Nat) (h : i < l.length) :
    (l.set i v).getD i d = v := by
  rw [List.getD_eq_getElem?_getD, List.getElem?_set_eq_of_lt v h]
  rfl

theorem getD_set_ne (l : List Nat) (i j v d : Nat) (h : i ≠ j) :
    (l.set i v).getD j d = l.getD j d := by
  rw [List.getD_eq_getElem?_getD, List.getElem?_set_ne h,
    List.getD_eq_getElem?_getD]

theorem getD_eq_getElem (l : List Nat) (i d : Nat) (h : i < l.length) :
    l.getD i d = l[i] := by
  rw [List.getD_eq_getElem?_getD, List.getElem?_eq_getElem h]
  rfl

theorem encodeUpTo_succ (L : DrgLayer) (data : List Nat) (k : Nat) :
    encodeUpTo L data (k + 1) = encNode L (encodeUpTo L data k) k := by
  simp [encodeUpTo, List.range_succ, List.foldl_append]

theorem length_encNode (L : DrgLayer) (buf : List Nat) (i : Nat) :
    (encNode L buf i).length = buf.length := by
  simp [encNode]

theorem length_encodeUpTo (L : DrgLayer) (data : List Nat) (k : Nat) :
    (encodeUpTo L data k).length = data.length := by
  induction k with
  | zero => rfl
  | succ k ih => rw [encodeUpTo_succ, length_encNode, ih]

theorem length_vde_encode (L : DrgLayer) (data : List Nat) :
    (vde_encode L data).length = data.length :=
  length_encodeUpTo L data data.length

/-- Positions at or past the encoding frontier still hold their original
plaintext value. -/
theorem encodeUpTo_untouched (L : DrgLayer) (data : List Nat) (k j : Nat)
    (h : k ≤ j) : (encodeUpTo L data k).getD j 0 = data.getD j 0 := by
  induction k with
  | zero => rfl
  | succ k ih =>
      rw [encodeUpTo_succ, encNode, getD_set_ne]
      · exact ih (Nat.le_of_succ_le h)
      · exact Nat.ne_of_lt (Nat.lt_of_succ_le h)

/-- Once a position has been encoded, later encoding steps never rewrite
it: all buffers from step j+1 on agree at position j. -/
theorem encodeUpTo_stable (L : DrgLayer) (data : List Nat) (j m : Nat)
    (h : j < m) :
    (encodeUpTo L data m).getD j 0 = (encodeUpTo L data (j + 1)).getD j 0 := by
  induction m with
  | zero => exact absurd h (Nat.not_lt_zero j)
  | succ m ih =>
      rcases Nat.lt_succ_iff_lt_or_eq.mp h with h' | h'
      · rw [encodeUpTo_succ, encNode, getD_set_ne]
        · exact ih h'
        · exact (Nat.ne_of_lt h').symm
      · subst h'
        rfl

/-- The defining equation of the finished replica: every node holds its
plaintext value combined with the key recomputed from the replica's own
parent values. -/
theorem vde_encode_getD (L : DrgLayer) (data : List Nat)
    (hac : DrgAcyclic L) (j : Nat) (hj : j < data.length) :
    (vde_encode L data).getD j 0 =
      (data.getD j 0) ^^^
        (L.key j ((L.parents j).map fun p => (vde_encode L data).getD p 0)) := by
  have h1 : (vde_encode L data).getD j 0
      = (encodeUpTo L data (j + 1)).getD j 0 :=
    encodeUpTo_stable L data j data.length hj
  rw [h1, encodeUpTo_succ, encNode,
    getD_set_self _ _ _ _ (by rw [length_encodeUpTo]; exact hj)]
  congr 1
  · exact encodeUpTo_untouched L data j j le_rfl
  · congr 1
    apply List.map_congr_left
    intro p hp
    have hpj : p < j := hac j p hp
    calc (encodeUpTo L data j).getD p 0
        = (encodeUpTo L data (p + 1)).getD p 0 :=
          encodeUpTo_stable L data p j hpj
      _ = (vde_encode L data).getD p 0 :=
          (encodeUpTo_stable L data p data.length (hpj.trans hj)).symm

theorem length_vde_decode (L : DrgLayer) (replica : List Nat) :
    (vde_decode L replica).length = replica.length := by
  simp [vde_decode]

/-- Single-layer roundtrip: decoding the encoded buffer with the same
layer recovers the plaintext. -/
theorem vde_decode_encode (L : DrgLayer) (data : List Nat)
    (hac : DrgAcyclic L) : vde_decode L (vde_encode L data) = data := by
  apply List.ext_getElem
  · rw [length_vde_decode, length_vde_encode]
  · intro i h1 h2
    simp only [vde_decode, List.getElem_map, List.getElem_range]
    rw [decNode, vde_encode_getD L data hac i h2, Nat.xor_assoc,
      Nat.xor_self, Nat.xor_zero]
    exact getD_eq_getElem data i 0 h2

theorem replicate_encode_cons (L : DrgLayer) (ls : List DrgLayer)
    (data : List Nat) :
    replicate_encode (L :: ls) data = replicate_encode ls (vde_encode L data) :=
  rfl

theorem extract_all_cons (L : DrgLayer) (ls : List DrgLayer)
    (replica : List Nat) :
    extract_all (L :: ls) replica = vde_decode L (extract_all ls replica) :=
  rfl

/-- Layered roundtrip: extract_all inverts the full layered replication. -/
theorem extract_all_replicate_encode (layers : List DrgLayer)
    (data : List Nat) (hac : ∀ L ∈ layers, DrgAcyclic L) :
    extract_all layers (replicate_encode layers data) = data := by
  induction layers generalizing data with
  | nil => rfl
  | cons L ls ih =>
      rw [replicate_encode_cons, extract_all_cons,
        ih (vde_encode L data) (fun M hM => hac M (List.mem_cons_of_mem L hM))]
      exact vde_decode_encode L data (hac L (List.mem_cons_self L ls))

theorem length_replicate_encode (layers : List DrgLayer) (data : List Nat) :
    (replicate_encode layers data).length = data.length := by
  induction layers generalizing data with
  | nil => rfl
  | cons L ls ih =>
      rw [replicate_encode_cons, ih, length_vde_encode]

theorem Outcome.bind_eq_ok {α β : Type} {o : Outcome α} {f : α → Outcome β}
    {b : β} (h : o.bind f = .ok b) : ∃ a, o = .ok a ∧ f a = .ok b := by
  cases o with
  | ok a => exact ⟨a, rfl, h⟩
  | err m => exact absurd h (by simp [Outcome.bind])
  | panic m => exact absurd h (by simp [Outcome.bind])

theorem Outcome.expects_ne_err {α : Type} (o : Outcome α) (m m' : String) :
    o.expects m ≠ .err m' := by
  cases o <;> simp [Outcome.expects]

theorem mapOutcome_ok {α β : Type} (f : α → Outcome β) (g : α → β)
    (l : List α) (h : ∀ a ∈ l, f a = .ok (g a)) :
    mapOutcome f l = .ok (l.map g) := by
  induction l with
  | nil => rfl
  | cons a rest ih =>
      rw [mapOutcome, h a (List.mem_cons_self a rest),
        ih (fun x hx => h x (List.mem_cons_of_mem a hx))]
      rfl

theorem mapOutcome_ne_ok {α β : Type} (f : α → Outcome β) (l : List α)
    (a : α) (ha : a ∈ l) (hbad : ∀ b, f a ≠ .ok b) :
    ∀ bs, mapOutcome f l ≠ .ok bs := by
  induction l with
  | nil => cases ha
  | cons x rest ih =>
      intro bs h
      rw [mapOutcome] at h
      obtain ⟨b, hb, h⟩ := Outcome.bind_eq_ok h
      obtain ⟨bs', hbs', h⟩ := Outcome.bind_eq_ok h
      rcases List.mem_cons.mp ha with rfl | ha'
      · exact hbad b hb
      · exact ih ha' bs' hbs'

theorem mapOutcome_ne_err {α β : Type} (f : α → Outcome β) (l : List α)
    (h : ∀ a ∈ l, ∀ m, f a ≠ .err m) :
    ∀ m, mapOutcome f l ≠ .err m := by
  induction l with
  | nil => intro m hm; cases hm
  | cons x rest ih =>
      intro m hm
      rw [mapOutcome] at hm
      cases hfx : f x with
      | ok b =>
          rw [hfx] at hm
          cases hrest : mapOutcome f rest with
          | ok bs => rw [show Outcome.bind (Outcome.ok b) _ = _ from rfl, hrest] at hm; cases hm
          | err m' =>
              exact ih (fun a ha => h a (List.mem_cons_of_mem x ha)) m' hrest
          | panic m' => rw [show Outcome.bind (Outcome.ok b) _ = _ from rfl, hrest] at hm; cases hm
      | err m' => exact h x (List.mem_cons_self x rest) m' hfx
      | panic m' => rw [hfx] at hm; cases hm

/-- An outcome that is neither Ok nor Err is a panic. -/
theorem Outcome.eq_panic_of_ne {α : Type} (o : Outcome α)
    (hok : ∀ a, o ≠ .ok a) (herr : ∀ m, o ≠ .err m) : ∃ m, o = .panic m := by
  cases o with
  | ok a => exact absurd rfl (hok a)
  | err m => exact absurd rfl (herr m)
  | panic m => exact ⟨m, rfl⟩

theorem le_val_append (a b : List Nat) :
    le_val (a ++ b) = le_val a + 256 ^ a.length * le_val b := by
  induction a with
  | nil => simp [le_val]
  | cons x xs ih =>
      show le_val (x :: (xs ++ b)) = le_val (x :: xs) + 256 ^ (x :: xs).length * le_val b
      simp only [le_val, List.length_cons]
      rw [ih, pow_succ]
      ring

theorem le_val_lt_pow (bs : List Nat) (h : ∀ b ∈ bs, b < 256) :
    le_val bs < 256 ^ bs.length := by
  induction bs with
  | nil => simp [le_val]
  | cons x xs ih =>
      have hx : x < 256 := h x (List.mem_cons_self x xs)
      have hxs : le_val xs + 1 ≤ 256 ^ xs.length :=
        ih (fun b hb => h b (List.mem_cons_of_mem x hb))
      simp only [le_val, List.length_cons]
      calc x + 256 * le_val xs < 256 + 256 * le_val xs := by omega
        _ = 256 * (le_val xs + 1) := by ring
        _ ≤ 256 * 256 ^ xs.length := Nat.mul_le_mul_left 256 hxs
        _ = 256 ^ (xs.length + 1) := by rw [pow_succ]; ring

/-- Masking the top byte with 0b0011_1111 keeps a 32-byte seed strictly
below the field order, hence canonically reducible. -/
theorem safe_challenge_seed_canonical (cs : List Nat) (hlen : cs.length = 32)
    (hbytes : ∀ b ∈ cs, b < 256) :
    le_val (gen_safe_challenge_seed cs) < fr_modulus := by
  have h31 : (31 : Nat) < cs.length := by omega
  have hset : cs.set 31 ((cs.getD 31 0) &&& 63)
      = cs.take 31 ++ ((cs.getD 31 0) &&& 63) :: cs.drop 32 := by
    rw [List.set_eq_take_append_cons_drop, if_pos h31]
  have hdrop : cs.drop 32 = [] := List.drop_eq_nil_of_le (by omega)
  have hmask : (cs.getD 31 0) &&& 63 ≤ 63 := Nat.and_le_right
  have htake : le_val (cs.take 31) < 256 ^ 31 := by
    have hb := le_val_lt_pow (cs.take 31)
      (fun b hb => hbytes b (List.take_subset 31 cs hb))
    rwa [List.length_take, hlen, show min 31 32 = 31 from rfl] at hb
  rw [gen_safe_challenge_seed, hset, hdrop, le_val_append, List.length_take,
    hlen, show min 31 32 = 31 from rfl]
  have hone : le_val [(cs.getD 31 0) &&& 63] = (cs.getD 31 0) &&& 63 := by
    simp [le_val]
  rw [hone]
  calc le_val (cs.take 31) + 256 ^ 31 * ((cs.getD 31 0) &&& 63)
      < 256 ^ 31 + 256 ^ 31 * 63 :=
        add_lt_add_of_lt_of_le htake (Nat.mul_le_mul_left _ hmask)
    _ ≤ fr_modulus := by norm_num [fr_modulus]

/-! ### Claim theorems -/

/-- C2: for every graph layer whose parents all precede their node and
every data buffer, decoding the encoded replica with the same replica id
and graph returns exactly the original data: decode after encode is the
identity, the roundtrip exercised by get_unsealed_range via extract_all. -/
theorem vde_decode_inverts_encode (L : DrgLayer) (data : List Nat)
    (hac : DrgAcyclic L) : vde_decode L (vde_encode L data) = data :=
  vde_decode_encode L data hac

theorem vde_decode_inverts_encode_witness :
    vde_decode chainLayer (vde_encode chainLayer [5, 7, 11]) = [5, 7, 11] :=
  vde_decode_inverts_encode chainLayer [5, 7, 11]
    (fun _ _ hp => List.mem_range.mp hp)

/-- C6: generate_post and verify_post derive the field-canonical challenge
seed by the identical transformation, masking byte 31 with 0b0011_1111, so
the prover-side and verifier-side canonical seeds agree on every input;
the masked top byte is below 64 and a 32-byte seed becomes canonically
reducible below the field order. -/
theorem post_challenge_seed_same_derivation (cs : List Nat) :
    gen_safe_challenge_seed cs = ver_safe_challenge_seed cs ∧
    (gen_safe_challenge_seed cs).getD 31 0 < 64 ∧
    (cs.length = 32 → (∀ b ∈ cs, b < 256) →
      le_val (gen_safe_challenge_seed cs) < fr_modulus) := by
  refine ⟨rfl, ?_, fun h1 h2 => safe_challenge_seed_canonical cs h1 h2⟩
  by_cases h : 31 < cs.length
  · rw [gen_safe_challenge_seed, getD_set_self _ _ _ _ h]
    exact Nat.lt_succ_of_le Nat.and_le_right
  · rw [gen_safe_challenge_seed, List.set_eq_take_append_cons_drop, if_neg h,
      List.getD_eq_getElem?_getD, List.getElem?_eq_none (Nat.le_of_not_lt h)]
    exact Nat.lt_of_sub_eq_succ rfl

theorem post_challenge_seed_same_derivation_witness :
    gen_safe_challenge_seed zeros32 = ver_safe_challenge_seed zeros32 ∧
    le_val (gen_safe_challenge_seed zeros32) < fr_modulus :=
  ⟨(post_challenge_seed_same_derivation zeros32).1,
    (post_challenge_seed_same_derivation zeros32).2.2 (by decide) (by decide)⟩

/-- C7: get_unsealed_range reads the full padded sector, decodes it in its
entirety with extract_all, and writes exactly the unpadded bytes from
offset up to offset plus num_bytes of the decoded data, returning the
number of bytes written: the requested range of the originally written
unpadded bytes. -/
theorem get_unsealed_range_extracts_requested_range
    (layers : List DrgLayer) (unpad : List Nat → List Nat)
    (padded : List Nat) (offset len : Nat)
    (hac : ∀ L ∈ layers, DrgAcyclic L) :
    get_unsealed_range layers unpad (replicate_encode layers padded).length
        (replicate_encode layers padded) offset len
      = (((unpad padded).drop offset).take len,
          (((unpad padded).drop offset).take len).length) := by
  simp only [get_unsealed_range, List.take_length,
    extract_all_replicate_encode layers padded hac, write_unpadded]

theorem get_unsealed_range_extracts_requested_range_witness :
    get_unsealed_range [chainLayer] id
        (replicate_encode [chainLayer] [1, 2, 3, 4]).length
        (replicate_encode [chainLayer] [1, 2, 3, 4]) 1 2 = ([2, 3], 2) :=
  get_unsealed_range_extracts_requested_range [chainLayer] id [1, 2, 3, 4] 1 2
    (by
      intro L hL i p hp
      rw [List.mem_singleton] at hL
      subst hL
      exact List.mem_range.mp hp)

/-- C8: the output file of seal is retained exactly when every stage up to
and including the flush succeeded: a failure anywhere up through
replication or the flush discards the partially written output, and once
the flush has completed the output is retained even if the subsequent
proving phase fails. -/
theorem seal_retains_output_iff_flushed (env : SealEnv) (partitions : Nat)
    (pin sin : List Nat) :
    (seal_op env partitions pin sin).retained = true ↔
      ∃ tau, seal_pre env = .ok tau := by
  cases h : seal_pre env with
  | ok tau => simp [seal_op, h]
  | err m => simp [seal_op, h]
  | panic m => simp [seal_op, h]

theorem Outcome.bind_eq_err {α β : Type} {o : Outcome α} {f : α → Outcome β}
    {m : String} (h : o.bind f = .err m) :
    o = .err m ∨ ∃ a, o = .ok a ∧ f a = .err m := by
  cases o with
  | ok a => exact Or.inr ⟨a, rfl, h⟩
  | err m' =>
      simp only [Outcome.bind] at h
      injection h with h'
      exact Or.inl (by rw [h'])
  | panic m' => exact absurd h (by simp [Outcome.bind])

/-- C9: every successful run of generate_post_fixed_sectors_count returns
an empty faults list: no execution path of PoSt generation ever records a
detected fault. -/
theorem generate_post_success_faults_empty (env : PostGenEnv)
    (fixed : GeneratePoStFixedSectorsCountInput)
    (out : GeneratePoStFixedSectorsCountOutput)
    (h : generate_post_fixed_sectors_count env fixed = .ok out) :
    out.faults = [] := by
  simp only [generate_post_fixed_sectors_count] at h
  obtain ⟨_, _, h⟩ := Outcome.bind_eq_ok h
  obtain ⟨_, _, h⟩ := Outcome.bind_eq_ok h
  obtain ⟨_, _, h⟩ := Outcome.bind_eq_ok h
  obtain ⟨_, _, h⟩ := Outcome.bind_eq_ok h
  obtain ⟨_, _, h⟩ := Outcome.bind_eq_ok h
  obtain ⟨_, _, h⟩ := Outcome.bind_eq_ok h
  injection h with h2
  rw [← h2]

theorem generate_post_success_faults_empty_witness : genPostOut0.faults = [] :=
  generate_post_success_faults_empty okPostGenEnv okGenInput genPostOut0
    (by decide)

/-- C5: whenever at least one input part of PoSt generation has no sector
access (the sector is declared faulted), generate_post_fixed_sectors_count
aborts with a panic: it never returns a proof, and never fails quietly
with a recoverable error either. -/
theorem generate_post_faulted_sector_aborts (env : PostGenEnv)
    (fixed : GeneratePoStFixedSectorsCountInput)
    (hfault : ∃ part ∈ fixed.input_parts, part.1 = none) :
    ∃ m, generate_post_fixed_sectors_count env fixed = .panic m := by
  obtain ⟨part, hmem, hnone⟩ := hfault
  have hfpart : ∀ b, (match part.1 with
      | some s => (env.makeTree s).expects "called Result unwrap on an Err value"
      | none => Outcome.panic "faults are not yet supported") ≠ Outcome.ok b := by
    intro b hb
    rw [hnone] at hb
    exact absurd hb (by simp)
  have htrees_ne_err : ∀ a ∈ fixed.input_parts, ∀ m, (match a.1 with
      | some s => (env.makeTree s).expects "called Result unwrap on an Err value"
      | none => Outcome.panic "faults are not yet supported") ≠ Outcome.err m := by
    intro a _ m hm
    cases ha : a.1 with
    | some s => rw [ha] at hm; exact Outcome.expects_ne_err _ _ _ hm
    | none => rw [ha] at hm; exact absurd hm (by simp)
  apply Outcome.eq_panic_of_ne
  · intro out hok
    simp only [generate_post_fixed_sectors_count] at hok
    obtain ⟨_, _, hok⟩ := Outcome.bind_eq_ok hok
    obtain ⟨_, _, hok⟩ := Outcome.bind_eq_ok hok
    obtain ⟨_, _, hok⟩ := Outcome.bind_eq_ok hok
    obtain ⟨trees, htr, _⟩ := Outcome.bind_eq_ok hok
    exact mapOutcome_ne_ok _ _ part hmem hfpart trees htr
  · intro m herr
    simp only [generate_post_fixed_sectors_count] at herr
    rcases Outcome.bind_eq_err herr with h | ⟨_, _, herr⟩
    · exact Outcome.expects_ne_err _ _ _ h
    rcases Outcome.bind_eq_err herr with h | ⟨_, _, herr⟩
    · exact mapOutcome_ne_err _ _
        (fun a _ m' => Outcome.expects_ne_err _ _ m') _ h
    rcases Outcome.bind_eq_err herr with h | ⟨_, _, herr⟩
    · exact Outcome.expects_ne_err _ _ _ h
    rcases Outcome.bind_eq_err herr with h | ⟨trees, htr, _⟩
    · exact mapOutcome_ne_err _ _ htrees_ne_err _ h
    · exact mapOutcome_ne_ok _ _ part hmem hfpart trees htr

theorem generate_post_faulted_sector_aborts_witness :
    ∃ m, generate_post_fixed_sectors_count okPostGenEnv faultedGenInput
      = Outcome.panic m :=
  generate_post_faulted_sector_aborts okPostGenEnv faultedGenInput
    ⟨(none, zeros32), by decide, rfl⟩

/-- C10: for proof blobs at least partitions times
SINGLE_PARTITION_PROOF_LEN bytes long, verify_post_fixed_sectors_count
depends only on that prefix of the blob: two blobs agreeing on the prefix
but differing in trailing bytes verify identically. -/
theorem verify_post_ignores_trailing_bytes (env : PostVerifyEnv)
    (fixed : VerifyPoStFixedSectorsCountInput) (p1 p2 : List Nat)
    (h1 : SINGLE_PARTITION_PROOF_LEN * fixed.partitions ≤ p1.length)
    (h2 : SINGLE_PARTITION_PROOF_LEN * fixed.partitions ≤ p2.length)
    (hpre : p1.take (SINGLE_PARTITION_PROOF_LEN * fixed.partitions)
      = p2.take (SINGLE_PARTITION_PROOF_LEN * fixed.partitions)) :
    verify_post_fixed_sectors_count env (fixed.withProof p1)
      = verify_post_fixed_sectors_count env (fixed.withProof p2) := by
  simp only [verify_post_fixed_sectors_count,
    VerifyPoStFixedSectorsCountInput.withProof, if_neg (Nat.not_lt.mpr h1),
    if_neg (Nat.not_lt.mpr h2), hpre]

theorem verify_post_ignores_trailing_bytes_witness :
    verify_post_fixed_sectors_count okPostVerifyEnv
        (postFixed0.withProof proof192)
      = verify_post_fixed_sectors_count okPostVerifyEnv
          (postFixed0.withProof (proof192 ++ [7])) :=
  verify_post_ignores_trailing_bytes okPostVerifyEnv postFixed0 proof192
    (proof192 ++ [7]) (by decide) (by decide) (by decide)

/-- C1: a concrete seal run in which every stage succeeds but the
embedded post-seal verify_seal call returns Ok(false): seal nevertheless
returns the SealOutput to its caller, because the expect placed on the
verification call only turns an Err into a panic and discards the Ok
verdict, and the returned proof is one that seal's own verifier, run on
the very commitments and proof of that output, rejects. -/
theorem seal_returns_proof_its_own_verifier_rejects :
    (seal_op sealEnvReject 1 pid0 sid0).result = Outcome.ok sealOutReject ∧
    verify_seal sealEnvReject.verifyEnv 1 sealOutReject.comm_r
        sealOutReject.comm_d sealOutReject.comm_r_star pid0 sid0
        sealOutReject.proof = Outcome.ok false :=
  ⟨by decide, by decide⟩

/-- C3 counterexample: with every external collaborator succeeding, a
comm_r of 32 0xff bytes -- not a canonical field element -- makes
verify_seal return an error result, not the boolean false the claim
asserts. -/
theorem verify_seal_malformed_commitment_errs_concrete :
    verify_seal okVerifyEnv 1 badComm zeros32 zeros32 pid0 sid0 proof192
      = Outcome.err "could not convert bytes to Fr" ∧
    verify_seal okVerifyEnv 1 badComm zeros32 zeros32 pid0 sid0 proof192
      ≠ Outcome.ok false :=
  ⟨by decide, by decide⟩

/-- C3 (amended): verify_seal is a deterministic function of its inputs
and environment, and whenever any of the three commitments' 32 bytes do
not canonically represent a field element it returns an error result -- a
verification failure surfaced as Err, never a panic and never the boolean
false -- regardless of what the external collaborators would do. -/
theorem verify_seal_malformed_commitment_is_error (env : VerifyEnv)
    (partitions : Nat) (comm_r comm_d comm_r_star pin sin pv : List Nat)
    (hbad : badFr comm_r ∨ badFr comm_d ∨ badFr comm_r_star) :
    verify_seal env partitions comm_r comm_d comm_r_star pin sin pv
      = Outcome.err "could not convert bytes to Fr" := by
  rcases hbad with h | h | h
  · simp only [verify_seal, bytes_into_fr, if_neg h, Outcome.bind]
  · by_cases h1 : comm_r.length = 32 ∧ le_val comm_r < fr_modulus
    · simp only [verify_seal, bytes_into_fr, if_pos h1, if_neg h,
        Outcome.bind]
    · simp only [verify_seal, bytes_into_fr, if_neg h1, Outcome.bind]
  · by_cases h1 : comm_r.length = 32 ∧ le_val comm_r < fr_modulus
    · by_cases h2 : comm_d.length = 32 ∧ le_val comm_d < fr_modulus
      · simp only [verify_seal, bytes_into_fr, if_pos h1, if_pos h2,
          if_neg h, Outcome.bind]
      · simp only [verify_seal, bytes_into_fr, if_pos h1, if_neg h2,
          Outcome.bind]
    · simp only [verify_seal, bytes_into_fr, if_neg h1, Outcome.bind]

theorem verify_seal_malformed_commitment_is_error_witness :
    verify_seal okVerifyEnv 2 badComm badComm badComm pid0 sid0 []
      = Outcome.err "could not convert bytes to Fr" :=
  verify_seal_malformed_commitment_is_error okVerifyEnv 2 badComm badComm
    badComm pid0 sid0 [] (Or.inl (by decide))

/-- C4 counterexample: a proof blob shorter than partitions times
SINGLE_PARTITION_PROOF_LEN -- here the empty blob against one partition --
makes verify_post panic at the proof slicing step: a crash, not the error
or false verdict the claim asserts. -/
theorem verify_post_short_proof_panics_concrete :
    verify_post_fixed_sectors_count okPostVerifyEnv postFixed0
      = Outcome.panic "range end index out of range for slice" := by
  decide

/-- C4 (amended): a proof blob shorter than partitions times the
per-partition length fails verification deterministically without ever
invoking the arithmetic-circuit layer: verify_seal never returns a
verdict, its result is independent of the circuit verifier, and --
whenever its commitments are canonical and its collaborators succeed --
it returns an error result at the proof-parsing step; verify_post
likewise never returns a verdict, is independent of the circuit
verifier, and -- whenever its other inputs are well-formed -- aborts
with a panic at the proof slicing step rather than returning an error
or a false verdict. -/
theorem short_proof_blob_fails_before_circuit (venv : VerifyEnv)
    (partitions : Nat) (comm_r comm_d comm_r_star pin sin pv : List Nat)
    (penv : PostVerifyEnv) (fixed : VerifyPoStFixedSectorsCountInput)
    (hseal : pv.length < partitions * SINGLE_PARTITION_PROOF_LEN)
    (hpost :
      fixed.proof.length < SINGLE_PARTITION_PROOF_LEN * fixed.partitions) :
    (∀ b, verify_seal venv partitions comm_r comm_d comm_r_star pin sin pv
        ≠ Outcome.ok b) ∧
    (∀ f g, verify_seal (venv.withCircuit f) partitions comm_r comm_d
        comm_r_star pin sin pv
      = verify_seal (venv.withCircuit g) partitions comm_r comm_d
          comm_r_star pin sin pv) ∧
    (venv.setup = .ok () → venv.verifyingKey = .ok () →
      ¬ badFr comm_r → ¬ badFr comm_d → ¬ badFr comm_r_star →
      verify_seal venv partitions comm_r comm_d comm_r_star pin sin pv
        = Outcome.err "could not read multi proof from bytes") ∧
    (∀ out, verify_post_fixed_sectors_count penv fixed ≠ Outcome.ok out) ∧
    (∀ f g, verify_post_fixed_sectors_count (penv.withCircuit f) fixed
      = verify_post_fixed_sectors_count (penv.withCircuit g) fixed) ∧
    (penv.setup = .ok () → penv.verifyingKey = .ok () →
      (∀ c ∈ fixed.comm_rs, ¬ badFr c) →
      ¬ badFr (ver_safe_challenge_seed fixed.challenge_seed) →
      verify_post_fixed_sectors_count penv fixed
        = Outcome.panic "range end index out of range for slice") := by
  refine ⟨?_, ?_, ?_, ?_, ?_, ?_⟩
  · intro b hok
    simp only [verify_seal] at hok
    obtain ⟨_, _, hok⟩ := Outcome.bind_eq_ok hok
    obtain ⟨_, _, hok⟩ := Outcome.bind_eq_ok hok
    obtain ⟨_, _, hok⟩ := Outcome.bind_eq_ok hok
    obtain ⟨_, _, hok⟩ := Outcome.bind_eq_ok hok
    obtain ⟨_, _, hok⟩ := Outcome.bind_eq_ok hok
    obtain ⟨proofs, hmp, _⟩ := Outcome.bind_eq_ok hok
    rw [multi_proof_from_bytes, if_pos hseal] at hmp
    simp at hmp
  · intro f g
    simp only [verify_seal, VerifyEnv.withCircuit, multi_proof_from_bytes,
      if_pos hseal, Outcome.bind]
  · intro hsetup hvk hr hd hrs
    have hr' := not_not.mp
      (show ¬¬(comm_r.length = 32 ∧ le_val comm_r < fr_modulus) from hr)
    have hd' := not_not.mp
      (show ¬¬(comm_d.length = 32 ∧ le_val comm_d < fr_modulus) from hd)
    have hrs' := not_not.mp
      (show ¬¬(comm_r_star.length = 32 ∧ le_val comm_r_star < fr_modulus)
        from hrs)
    simp only [verify_seal, bytes_into_fr, if_pos hr', if_pos hd',
      if_pos hrs', hsetup, hvk, multi_proof_from_bytes, if_pos hseal,
      Outcome.bind]
  · intro out hok
    simp only [verify_post_fixed_sectors_count] at hok
    obtain ⟨_, _, hok⟩ := Outcome.bind_eq_ok hok
    obtain ⟨_, _, hok⟩ := Outcome.bind_eq_ok hok
    obtain ⟨_, _, hok⟩ := Outcome.bind_eq_ok hok
    obtain ⟨_, _, hok⟩ := Outcome.bind_eq_ok hok
    rw [if_pos hpost] at hok
    simp at hok
  · intro f g
    simp only [verify_post_fixed_sectors_count, PostVerifyEnv.withCircuit,
      if_pos hpost, Outcome.bind]
  · intro hsetup hvk hcomms hseed
    have hsetup' : penv.setup.expects "setup failed" = .ok () := by
      rw [hsetup]
      rfl
    have hcomm : mapOutcome
        (fun c => (bytes_into_fr c).expects
          "could not could not map comm_r to Fr")
        fixed.comm_rs = .ok (fixed.comm_rs.map le_val) := by
      apply mapOutcome_ok
      intro c hc
      have h' := not_not.mp
        (show ¬¬(c.length = 32 ∧ le_val c < fr_modulus) from hcomms c hc)
      rw [bytes_into_fr, if_pos h']
      rfl
    have hseed' : bytes_into_fr (ver_safe_challenge_seed fixed.challenge_seed)
        = .ok (le_val (ver_safe_challenge_seed fixed.challenge_seed)) := by
      have h' := not_not.mp
        (show ¬¬((ver_safe_challenge_seed fixed.challenge_seed).length = 32 ∧
          le_val (ver_safe_challenge_seed fixed.challenge_seed) < fr_modulus)
          from hseed)
      rw [bytes_into_fr, if_pos h']
    simp only [verify_post_fixed_sectors_count, hsetup', hcomm, hseed', hvk,
      if_pos hpost, Outcome.bind]

theorem short_proof_blob_fails_before_circuit_witness :
    verify_seal okVerifyEnv 1 zeros32 zeros32 zeros32 pid0 sid0 []
      = Outcome.err "could not read multi proof from bytes" ∧
    verify_post_fixed_sectors_count okPostVerifyEnv postFixed0
      = Outcome.panic "range end index out of range for slice" :=
  ⟨(short_proof_blob_fails_before_circuit okVerifyEnv 1 zeros32 zeros32
      zeros32 pid0 sid0 [] okPostVerifyEnv postFixed0 (by decide)
      (by decide)).2.2.1 rfl rfl (by decide) (by decide) (by decide),
    (short_proof_blob_fails_before_circuit okVerifyEnv 1 zeros32 zeros32
      zeros32 pid0 sid0 [] okPostVerifyEnv postFixed0 (by decide)
      (by decide)).2.2.2.2.2 rfl rfl (by decide) (by decide)⟩
